import Mathlib

/-!
Verification of the Rizzume retrieval-augmented résumé scoring pipeline.

Shallow embedding of the core pipeline of the repository:
* `app/service/chunking.py` — character chunking with overlap;
* `app/service/embedding_service.py` — embedding matrix / cosine similarity;
* `app/service/resume_rag_scorer.py` — retrieval, per-question scoring,
  clamping, aggregation;
* `app/service/jd_question_generator.py` — code-fence stripping before JSON
  parsing.

Python strings are modelled as `List Char`, Python floats as `ℚ` (only
ordering, clamping and arithmetic on scores matter for the properties below),
and the external collaborators (the sentence-transformer encoder, the LLM
backend transport, and Python's `json.loads`) are taken as explicit function
parameters, since they are outside the repository.
-/

namespace Rizzume

/-- The six ASCII whitespace characters stripped by Python's `str.strip()`
(we restrict to ASCII; the texts in play are ASCII). -/
def isPySpace (c : Char) : Bool :=
  c == ' ' || c == '\t' || c == '\n' || c == '\r' || c == '\x0b' || c == '\x0c'

/-- Python `str.lstrip()`. -/
def pyLstrip (l : List Char) : List Char := l.dropWhile isPySpace

/-- Python `str.rstrip()`. -/
def pyRstrip (l : List Char) : List Char := (l.reverse.dropWhile isPySpace).reverse

/-- Python `str.strip()`. -/
def pyStrip (l : List Char) : List Char := pyRstrip (pyLstrip l)

/-- Python slice `text[start:end]` for `0 ≤ start ≤ end ≤ len text`. -/
def pySlice (l : List Char) (s e : Nat) : List Char := (l.take e).drop s

/-- `TextChunk` from `app/service/chunking.py`. -/
structure TextChunk where
  id : Nat
  start : Nat
  «end» : Nat
  text : List Char
deriving DecidableEq

/-- The `while start < n` loop of `chunk_text` (`chunking.py` lines 33–51).
The Python `while` loop is modelled with an explicit iteration bound
(`fuel`): under the precondition `overlap < max_chars` each iteration
advances `start` by at least one character, so `fuel = length of the text`
is never exhausted (this is established by the lemmas below, in particular
`chunkLoop_fuel_irrelevant` and the fact that the final chunk's `end`
reaches the text length). -/
def chunkLoop (text : List Char) (maxChars overlap : Nat) :
    Nat → Nat → Nat → List TextChunk
  | 0, _, _ => []
  | fuel + 1, start, chunkId =>
    if start < text.length then
      let e := min (start + maxChars) text.length
      let c : TextChunk := ⟨chunkId, start, e, pySlice text start e⟩
      if e = text.length then [c]
      else c :: chunkLoop text maxChars overlap fuel (e - overlap) (chunkId + 1)
    else []

/-- `chunk_text` from `app/service/chunking.py`: strip the text, then run the
windowing loop from `start = 0`, `chunk_id = 0`.  (The Python early return
for `n == 0` is subsumed: the loop body never runs when the stripped text is
empty.) -/
def chunk_text (text : List Char) (maxChars overlap : Nat) : List TextChunk :=
  let t := pyStrip text
  chunkLoop t maxChars overlap t.length 0 0

/-- If the window start is already past the end of the text, the loop body
never runs. -/
theorem chunkLoop_of_not_lt (text : List Char) (maxChars overlap : Nat)
    (fuel start chunkId : Nat) (h : ¬ start < text.length) :
    chunkLoop text maxChars overlap fuel start chunkId = [] := by
  cases fuel with
  | zero => rfl
  | succ fuel => simp [chunkLoop, h]

/-- Master invariant of the chunking loop.  Under the precondition
`overlap < maxChars`, starting at any `start < n` with enough fuel
(`n - start ≤ fuel`), the produced chunk list: is nonempty; begins at
`(start, chunkId)`; carries consecutive ids; has every chunk's `end` equal to
`min (start + maxChars) n`, its text the corresponding slice; covers
`[start, n)`; ends exactly at `n`; consecutive chunks are full-width and
overlap-linked; and there are at most `n - start` chunks. -/
theorem chunkLoop_master (t : List Char) (mc ov : Nat) (hov : ov < mc) :
    ∀ fuel start cid, start < t.length → t.length - start ≤ fuel →
      chunkLoop t mc ov fuel start cid ≠ [] ∧
      (∀ c, (chunkLoop t mc ov fuel start cid).head? = some c →
        c.start = start ∧ c.id = cid) ∧
      (chunkLoop t mc ov fuel start cid).map TextChunk.id =
        List.range' cid (chunkLoop t mc ov fuel start cid).length ∧
      (∀ c ∈ chunkLoop t mc ov fuel start cid,
        c.«end» = min (c.start + mc) t.length ∧ c.start < t.length ∧
        start ≤ c.start ∧ c.text = pySlice t c.start c.«end») ∧
      (∀ i, start ≤ i → i < t.length →
        ∃ c ∈ chunkLoop t mc ov fuel start cid, c.start ≤ i ∧ i < c.«end») ∧
      (∀ cl, (chunkLoop t mc ov fuel start cid).getLast? = some cl →
        cl.«end» = t.length) ∧
      List.Chain' (fun a b => a.«end» - a.start = mc ∧ b.start = a.«end» - ov)
        (chunkLoop t mc ov fuel start cid) ∧
      (chunkLoop t mc ov fuel start cid).length ≤ t.length - start := by
  intro fuel
  induction fuel with
  | zero => intro start cid hs hf; omega
  | succ fuel ih =>
    intro start cid hs hf
    by_cases he : min (start + mc) t.length = t.length
    · -- final window: the loop emits one chunk and stops
      simp only [chunkLoop, if_pos hs, if_pos he]
      refine ⟨by simp, ?_, by simp, ?_, ?_, ?_, by simp, by simp; omega⟩
      · intro c hc
        simp only [List.head?_cons, Option.some.injEq] at hc
        subst hc; exact ⟨rfl, rfl⟩
      · intro c hc
        simp only [List.mem_singleton] at hc
        subst hc
        exact ⟨rfl, hs, Nat.le_refl _, rfl⟩
      · intro i hsi hi
        exact ⟨_, List.mem_singleton_self _, hsi, by simpa [he] using hi⟩
      · intro cl hcl
        simp only [List.getLast?_singleton, Option.some.injEq] at hcl
        subst hcl; exact he
    · -- non-final window: a full-width chunk followed by the rest
      have hmin : min (start + mc) t.length = start + mc := by omega
      have hlt : start + mc < t.length := by omega
      simp only [chunkLoop, if_pos hs, if_neg he]
      set s' := min (start + mc) t.length - ov with hs'def
      have hs'eq : s' = start + mc - ov := by omega
      have hs'lt : s' < t.length := by omega
      have hs'gt : start < s' := by omega
      have hf' : t.length - s' ≤ fuel := by omega
      obtain ⟨hne, hhead, hids, hmem, hcov, hlast, hchain, hlen⟩ :=
        ih s' (cid + 1) hs'lt hf'
      set rest := chunkLoop t mc ov fuel s' (cid + 1) with hrest
      refine ⟨by simp, ?_, ?_, ?_, ?_, ?_, ?_, ?_⟩
      · intro c hc
        simp only [List.head?_cons, Option.some.injEq] at hc
        subst hc; exact ⟨rfl, rfl⟩
      · simpa [List.range'_succ] using hids
      · intro c hc
        rcases List.mem_cons.mp hc with h | h
        · subst h; exact ⟨rfl, hs, Nat.le_refl _, rfl⟩
        · obtain ⟨h1, h2, h3, h4⟩ := hmem c h
          exact ⟨h1, h2, by omega, h4⟩
      · intro i hsi hi
        by_cases hif : i < start + mc
        · exact ⟨_, List.mem_cons_self _ _, hsi, by simpa [hmin] using hif⟩
        · obtain ⟨c, hcmem, hc1, hc2⟩ := hcov i (by omega) hi
          exact ⟨c, List.mem_cons_of_mem _ hcmem, hc1, hc2⟩
      · intro cl hcl
        apply hlast
        rcases List.exists_cons_of_ne_nil hne with ⟨b, l, hbl⟩
        rw [hbl] at hcl ⊢
        simpa using hcl
      · rw [List.chain'_cons']
        refine ⟨?_, hchain⟩
        intro y hy
        obtain ⟨hy1, hy2⟩ := hhead y hy
        constructor
        · simp only [hmin]; omega
        · simp only [hmin] at *; omega
      · simp only [List.length_cons]; omega

/-- Termination of the loop is genuinely fuel-independent: any two
sufficiently large fuels give the same chunk list. -/
theorem chunkLoop_fuel_irrelevant (t : List Char) (mc ov : Nat) (hov : ov < mc) :
    ∀ fuel fuel' start cid, t.length - start ≤ fuel → t.length - start ≤ fuel' →
      chunkLoop t mc ov fuel start cid = chunkLoop t mc ov fuel' start cid := by
  intro fuel
  induction fuel with
  | zero =>
    intro fuel' start cid hf hf'
    have hge : ¬ start < t.length := by omega
    rw [chunkLoop_of_not_lt _ _ _ _ _ _ hge, chunkLoop_of_not_lt _ _ _ _ _ _ hge]
  | succ fuel ih =>
    intro fuel' start cid hf hf'
    by_cases hs : start < t.length
    · cases fuel' with
      | zero => omega
      | succ fuel' =>
        simp only [chunkLoop, if_pos hs]
        by_cases he : min (start + mc) t.length = t.length
        · simp [he]
        · simp only [if_neg he]
          have : start < min (start + mc) t.length - ov := by omega
          rw [ih fuel' (min (start + mc) t.length - ov) (cid + 1)
            (by omega) (by omega)]
    · rw [chunkLoop_of_not_lt _ _ _ _ _ _ hs, chunkLoop_of_not_lt _ _ _ _ _ _ hs]

/-- Repackaging of the master invariant for `chunk_text` on a nonempty
stripped text. -/
theorem chunk_text_master (text : List Char) (maxChars overlap : Nat)
    (hov : overlap < maxChars) (hne : pyStrip text ≠ []) :
    chunk_text text maxChars overlap ≠ [] ∧
    (∀ c, (chunk_text text maxChars overlap).head? = some c →
      c.start = 0 ∧ c.id = 0) ∧
    (chunk_text text maxChars overlap).map TextChunk.id =
      List.range' 0 (chunk_text text maxChars overlap).length ∧
    (∀ c ∈ chunk_text text maxChars overlap,
      c.«end» = min (c.start + maxChars) (pyStrip text).length ∧
      c.start < (pyStrip text).length ∧ 0 ≤ c.start ∧
      c.text = pySlice (pyStrip text) c.start c.«end») ∧
    (∀ i, 0 ≤ i → i < (pyStrip text).length →
      ∃ c ∈ chunk_text text maxChars overlap, c.start ≤ i ∧ i < c.«end») ∧
    (∀ cl, (chunk_text text maxChars overlap).getLast? = some cl →
      cl.«end» = (pyStrip text).length) ∧
    List.Chain' (fun a b => a.«end» - a.start = maxChars ∧
      b.start = a.«end» - overlap) (chunk_text text maxChars overlap) ∧
    (chunk_text text maxChars overlap).length ≤ (pyStrip text).length := by
  have hlen : 0 < (pyStrip text).length := by
    cases h : pyStrip text with
    | nil => exact absurd h hne
    | cons a l => simp [h]
  have := chunkLoop_master (pyStrip text) maxChars overlap hov
    (pyStrip text).length 0 0 hlen (by omega)
  simpa [chunk_text] using this

/-- C1: for every input text and parameters with `max_chars > overlap ≥ 0`,
`chunk_text` first trims the text; if the trimmed text is empty it returns
the empty sequence, and otherwise the chunks have ids `0..n-1` in order,
the union of their `[start, end)` ranges covers `[0, len(trimmed))`, every
chunk satisfies `end - start ≤ max_chars`, and the last chunk's `end`
equals the trimmed text's length. -/
theorem chunk_text_coverage (text : List Char) (maxChars overlap : Nat)
    (hov : overlap < maxChars) :
    (pyStrip text = [] → chunk_text text maxChars overlap = []) ∧
    (pyStrip text ≠ [] →
      (chunk_text text maxChars overlap).map TextChunk.id =
        List.range (chunk_text text maxChars overlap).length ∧
      (∀ i < (pyStrip text).length, ∃ c ∈ chunk_text text maxChars overlap,
        c.start ≤ i ∧ i < c.«end») ∧
      (∀ c ∈ chunk_text text maxChars overlap,
        c.«end» - c.start ≤ maxChars) ∧
      ∃ cl, (chunk_text text maxChars overlap).getLast? = some cl ∧
        cl.«end» = (pyStrip text).length) := by
  constructor
  · intro h
    simp [chunk_text, h, chunkLoop]
  · intro hne
    obtain ⟨h1, _, h3, h4, h5, h6, _, _⟩ :=
      chunk_text_master text maxChars overlap hov hne
    refine ⟨?_, ?_, ?_, ?_⟩
    · rw [h3, List.range_eq_range']
    · intro i hi
      exact h5 i (Nat.zero_le i) hi
    · intro c hc
      obtain ⟨he, _, _, _⟩ := h4 c hc
      omega
    · rcases Option.isSome_iff_exists.mp
        (List.getLast?_isSome.mpr h1) with ⟨cl, hcl⟩
      exact ⟨cl, hcl, h6 cl hcl⟩

/-- C1 witness: a concrete run on the 8-character text `"abcdefgh"` with
`max_chars = 3`, `overlap = 1`. -/
theorem chunk_text_coverage_witness :
    1 < 3 ∧
    ((pyStrip (String.toList "abcdefgh") = [] →
        chunk_text (String.toList "abcdefgh") 3 1 = []) ∧
     (pyStrip (String.toList "abcdefgh") ≠ [] →
       (chunk_text (String.toList "abcdefgh") 3 1).map TextChunk.id =
         List.range (chunk_text (String.toList "abcdefgh") 3 1).length ∧
       (∀ i < (pyStrip (String.toList "abcdefgh")).length,
         ∃ c ∈ chunk_text (String.toList "abcdefgh") 3 1,
           c.start ≤ i ∧ i < c.«end») ∧
       (∀ c ∈ chunk_text (String.toList "abcdefgh") 3 1,
         c.«end» - c.start ≤ 3) ∧
       ∃ cl, (chunk_text (String.toList "abcdefgh") 3 1).getLast? = some cl ∧
         cl.«end» = (pyStrip (String.toList "abcdefgh")).length)) :=
  ⟨by decide, chunk_text_coverage (String.toList "abcdefgh") 3 1 (by decide)⟩

/-- C9: under the precondition `max_chars > overlap ≥ 0` the chunking loop
terminates: each iteration advances the window start strictly (the next
window starts at `previous_end - overlap`), the chunk count is bounded by
the text length, the loop stops when a window's end reaches the text length
(that final window is included), and giving the loop any larger iteration
bound produces the same list. -/
theorem chunk_text_terminates (text : List Char) (maxChars overlap : Nat)
    (hov : overlap < maxChars) :
    (chunk_text text maxChars overlap).length ≤ (pyStrip text).length ∧
    List.Chain' (fun a b => b.start = a.«end» - overlap ∧ a.start < b.start)
      (chunk_text text maxChars overlap) ∧
    (∀ cl, (chunk_text text maxChars overlap).getLast? = some cl →
      cl.«end» = (pyStrip text).length) ∧
    (pyStrip text ≠ [] → chunk_text text maxChars overlap ≠ []) ∧
    (∀ fuel, (pyStrip text).length ≤ fuel →
      chunkLoop (pyStrip text) maxChars overlap fuel 0 0 =
        chunk_text text maxChars overlap) := by
  by_cases hne : pyStrip text = []
  · refine ⟨by simp [chunk_text, hne, chunkLoop], ?_, ?_, ?_, ?_⟩
    · simp [chunk_text, hne, chunkLoop]
    · intro cl hcl
      simp [chunk_text, hne, chunkLoop] at hcl
    · intro h; exact absurd hne h
    · intro fuel _
      rw [chunkLoop_of_not_lt _ _ _ _ _ _ (by simp [hne])]
      simp [chunk_text, hne, chunkLoop]
  · obtain ⟨h1, _, _, _, _, h6, h7, h8⟩ :=
      chunk_text_master text maxChars overlap hov hne
    refine ⟨h8, ?_, h6, fun _ => h1, ?_⟩
    · refine List.Chain'.imp ?_ h7
      intro a b hab
      constructor
      · exact hab.2
      · omega
    · intro fuel hfuel
      simp only [chunk_text]
      exact chunkLoop_fuel_irrelevant (pyStrip text) maxChars overlap hov
        fuel (pyStrip text).length 0 0 (by omega) (by omega)

/-- C9 witness: a concrete run on `"hello world"` with `max_chars = 4`,
`overlap = 2`. -/
theorem chunk_text_terminates_witness :
    2 < 4 ∧
    ((chunk_text (String.toList "hello world") 4 2).length ≤
       (pyStrip (String.toList "hello world")).length ∧
     List.Chain' (fun a b => b.start = a.«end» - 2 ∧ a.start < b.start)
       (chunk_text (String.toList "hello world") 4 2) ∧
     (∀ cl, (chunk_text (String.toList "hello world") 4 2).getLast? = some cl →
       cl.«end» = (pyStrip (String.toList "hello world")).length) ∧
     (pyStrip (String.toList "hello world") ≠ [] →
       chunk_text (String.toList "hello world") 4 2 ≠ []) ∧
     (∀ fuel, (pyStrip (String.toList "hello world")).length ≤ fuel →
       chunkLoop (pyStrip (String.toList "hello world")) 4 2 fuel 0 0 =
         chunk_text (String.toList "hello world") 4 2)) :=
  ⟨by decide, chunk_text_terminates (String.toList "hello world") 4 2 (by decide)⟩

/-- C10: every chunk's `text` is the slice `trimmed[start:end]`; every chunk
except the last is exactly `max_chars` wide; and each next chunk starts at
the previous chunk's `end - overlap` (so consecutive chunks share exactly
`overlap` characters). -/
theorem chunk_text_exact_windows (text : List Char) (maxChars overlap : Nat)
    (hov : overlap < maxChars) :
    (∀ c ∈ chunk_text text maxChars overlap,
      c.text = pySlice (pyStrip text) c.start c.«end») ∧
    List.Chain' (fun a b => a.«end» - a.start = maxChars ∧
      b.start = a.«end» - overlap) (chunk_text text maxChars overlap) := by
  by_cases hne : pyStrip text = []
  · refine ⟨?_, ?_⟩ <;> simp [chunk_text, hne, chunkLoop]
  · obtain ⟨_, _, _, h4, _, _, h7, _⟩ :=
      chunk_text_master text maxChars overlap hov hne
    exact ⟨fun c hc => (h4 c hc).2.2.2, h7⟩

/-- C10 witness: a concrete run on `"abcdefghij"` with `max_chars = 4`,
`overlap = 1`. -/
theorem chunk_text_exact_windows_witness :
    1 < 4 ∧
    ((∀ c ∈ chunk_text (String.toList "abcdefghij") 4 1,
       c.text = pySlice (pyStrip (String.toList "abcdefghij")) c.start c.«end») ∧
     List.Chain' (fun a b => a.«end» - a.start = 4 ∧ b.start = a.«end» - 1)
       (chunk_text (String.toList "abcdefghij") 4 1)) :=
  ⟨by decide, chunk_text_exact_windows (String.toList "abcdefghij") 4 1 (by decide)⟩

/-! ### JSON values and code-fence stripping -/

/-- The values Python's `json.loads` can return.  Numbers are modelled as
rationals (JSON numbers are finite decimals; only ordering and arithmetic on
them matter here); objects are association lists in source order. -/
inductive JsonValue where
  | null : JsonValue
  | bool : Bool → JsonValue
  | num : ℚ → JsonValue
  | str : List Char → JsonValue
  | arr : List JsonValue → JsonValue
  | obj : List (List Char × JsonValue) → JsonValue

/-- The backtick character (written via its code point to keep it out of the
source text). -/
def backtick : Char := Char.ofNat 96

/-- `"```json\n"` as a character list. -/
def fencePre : List Char :=
  [backtick, backtick, backtick, 'j', 's', 'o', 'n', '\n']

/-- `"\n```"` as a character list. -/
def fenceSuf : List Char := ['\n', backtick, backtick, backtick]

/-- The reply wrapped in a code fence: three backticks, a `json` tag,
a newline, the payload, a newline, three backticks. -/
def wrapFence (s : List Char) : List Char := fencePre ++ s ++ fenceSuf

/-- The code-fence stripping applied to LLM replies before `json.loads`.
This is the body shared (verbatim, duplicated in the source) by
`_parse_scoring_json` (`resume_rag_scorer.py` lines 76–84) and
`_parse_json_from_content` (`jd_question_generator.py` lines 44–55):
strip whitespace; if the text starts with three backticks, strip all leading
backticks, drop a case-insensitive `json` language tag (4 characters) plus
surrounding whitespace, and drop a trailing triple backtick plus surrounding
whitespace. -/
def stripCodeFence (content : List Char) : List Char :=
  let text := pyStrip content
  if List.isPrefixOf [backtick, backtick, backtick] text then
    let text := text.dropWhile (fun c => c == backtick)
    let text := if (text.take 4).map Char.toLower = String.toList "json"
      then pyStrip (text.drop 4) else text
    let text := if List.isPrefixOf [backtick, backtick, backtick] text.reverse
      then pyStrip (text.take (text.length - 3)) else text
    text
  else text

/-- `_parse_scoring_json` from `resume_rag_scorer.py`: strip an optional
code fence, then hand the text to `json.loads` (an external collaborator,
passed in as `jsonLoads`; `none` models a `json.JSONDecodeError`). -/
def _parse_scoring_json (jsonLoads : List Char → Option JsonValue)
    (content : List Char) : Option JsonValue :=
  jsonLoads (stripCodeFence content)

/-- `_parse_json_from_content` from `jd_question_generator.py`: identical
stripping logic, then `json.loads`. -/
def _parse_json_from_content (jsonLoads : List Char → Option JsonValue)
    (content : List Char) : Option JsonValue :=
  jsonLoads (stripCodeFence content)

theorem dropWhile_idem (p : Char → Bool) (l : List Char) :
    (l.dropWhile p).dropWhile p = l.dropWhile p := by
  induction l with
  | nil => rfl
  | cons a l ih =>
    by_cases h : p a
    · simp [List.dropWhile_cons, h, ih]
    · simp [List.dropWhile_cons, h]

theorem pyLstrip_append_of_ne_nil {s : List Char} (t : List Char)
    (h : pyLstrip s ≠ []) : pyLstrip (s ++ t) = pyLstrip s ++ t := by
  simp only [pyLstrip] at *
  rw [List.dropWhile_append]
  simp [List.isEmpty_iff, h]

theorem pyLstrip_lstrip_append {s : List Char} (t : List Char)
    (h : pyLstrip s ≠ []) : pyLstrip (pyLstrip s ++ t) = pyLstrip s ++ t := by
  simp only [pyLstrip] at *
  rw [List.dropWhile_append, dropWhile_idem]
  simp [List.isEmpty_iff, h]

theorem pyRstrip_append_space {y : List Char} {c : Char}
    (h : isPySpace c = true) : pyRstrip (y ++ [c]) = pyRstrip y := by
  simp [pyRstrip, List.reverse_append, List.dropWhile_cons, h]

theorem isPySpace_backtick : isPySpace backtick = false := by decide

theorem pyRstrip_append_last {y : List Char} {c : Char}
    (h : isPySpace c = false) : pyRstrip (y ++ [c]) = y ++ [c] := by
  simp [pyRstrip, List.reverse_append, List.dropWhile_cons, h]

/-- On a reply whose stripped form does not begin with a backtick (as for any
bare JSON document), the fence-stripping step reduces to plain stripping. -/
theorem stripCodeFence_of_no_fence {s : List Char}
    (h2 : ∀ c, (pyStrip s).head? = some c → c ≠ backtick) :
    stripCodeFence s = pyStrip s := by
  simp only [stripCodeFence]
  rw [if_neg]
  intro hpre
  cases hs : pyStrip s with
  | nil => rw [hs] at hpre; simp [List.isPrefixOf] at hpre
  | cons a l =>
    rw [hs] at hpre
    simp only [List.isPrefixOf, Bool.and_eq_true, beq_iff_eq] at hpre
    exact h2 a (by rw [hs]; rfl) hpre.1.symm

/-- Unfolding of the fenced reply into an explicit character list. -/
theorem wrapFence_cons (s : List Char) :
    wrapFence s = backtick :: backtick :: backtick ::
      'j' :: 's' :: 'o' :: 'n' :: '\n' :: (s ++ fenceSuf) := rfl

/-- On a fenced reply `"```json\n" ++ s ++ "\n```"` whose payload `s` has a
non-whitespace character, the fence-stripping step recovers exactly the
stripped payload. -/
theorem stripCodeFence_wrapFence {s : List Char} (h1 : pyLstrip s ≠ []) :
    stripCodeFence (wrapFence s) = pyStrip s := by
  have hnl : isPySpace '\n' = true := by decide
  have hj : ('j' == backtick) = false := by decide
  -- stripping is the identity on the fenced reply
  have hsplit : wrapFence s = (fencePre ++ s ++ ['\n', backtick, backtick]) ++ [backtick] := by
    simp [wrapFence, fenceSuf]
  have hl0 : pyLstrip (wrapFence s) = wrapFence s := by
    rw [wrapFence_cons]
    simp [pyLstrip, List.dropWhile_cons, isPySpace_backtick]
  have h0 : pyStrip (wrapFence s) = wrapFence s := by
    simp only [pyStrip, hl0]
    rw [hsplit, pyRstrip_append_last isPySpace_backtick]
  have hpre : List.isPrefixOf [backtick, backtick, backtick] (wrapFence s) = true := by
    rw [wrapFence_cons]; simp [List.isPrefixOf]
  have hdrop : (wrapFence s).dropWhile (fun c => c == backtick) =
      'j' :: 's' :: 'o' :: 'n' :: '\n' :: (s ++ fenceSuf) := by
    rw [wrapFence_cons]
    simp [List.dropWhile_cons, hj]
  have hjson4 : ((['j', 's', 'o', 'n'] : List Char).map Char.toLower) =
      String.toList "json" := by decide
  have hfs : pyLstrip s ++ fenceSuf =
      (pyLstrip s ++ ['\n', backtick, backtick]) ++ [backtick] := by
    simp [fenceSuf]
  have hmid : pyStrip ('\n' :: (s ++ fenceSuf)) = pyLstrip s ++ fenceSuf := by
    have e1 : pyLstrip ('\n' :: (s ++ fenceSuf)) = pyLstrip s ++ fenceSuf := by
      rw [show pyLstrip ('\n' :: (s ++ fenceSuf)) = pyLstrip (s ++ fenceSuf) from by
        simp [pyLstrip, List.dropWhile_cons, hnl]]
      exact pyLstrip_append_of_ne_nil _ h1
    simp only [pyStrip, e1]
    rw [hfs, pyRstrip_append_last isPySpace_backtick, ← hfs]
  have hbranch :
      (if ((('j' :: 's' :: 'o' :: 'n' :: '\n' :: (s ++ fenceSuf)).take 4).map
          Char.toLower) = String.toList "json"
        then pyStrip (('j' :: 's' :: 'o' :: 'n' :: '\n' :: (s ++ fenceSuf)).drop 4)
        else 'j' :: 's' :: 'o' :: 'n' :: '\n' :: (s ++ fenceSuf)) =
      pyLstrip s ++ fenceSuf := by
    rw [if_pos]
    · rw [show (('j' :: 's' :: 'o' :: 'n' :: '\n' :: (s ++ fenceSuf)).drop 4 :
        List Char) = '\n' :: (s ++ fenceSuf) from rfl]
      exact hmid
    · rw [show (('j' :: 's' :: 'o' :: 'n' :: '\n' :: (s ++ fenceSuf)).take 4 :
        List Char) = ['j', 's', 'o', 'n'] from rfl]
      exact hjson4
  have hsuf : List.isPrefixOf [backtick, backtick, backtick]
      (pyLstrip s ++ fenceSuf).reverse = true := by
    simp [fenceSuf, List.reverse_append, List.isPrefixOf]
  have hlen : (pyLstrip s ++ fenceSuf).length = (pyLstrip s).length + 4 := by
    simp [fenceSuf]
  have htake : (pyLstrip s ++ fenceSuf).take
      ((pyLstrip s ++ fenceSuf).length - 3) = pyLstrip s ++ ['\n'] := by
    rw [hlen, List.take_append_eq_append_take]
    have h4 : (pyLstrip s).length + 4 - 3 = (pyLstrip s).length + 1 := by omega
    rw [h4, List.take_of_length_le (by omega)]
    have h5 : (pyLstrip s).length + 1 - (pyLstrip s).length = 1 := by omega
    rw [h5]
    rfl
  have hfinal : pyStrip (pyLstrip s ++ ['\n']) = pyStrip s := by
    simp only [pyStrip]
    rw [show pyLstrip (pyLstrip s ++ ['\n']) = pyLstrip s ++ ['\n'] from
      pyLstrip_lstrip_append _ h1]
    rw [pyRstrip_append_space hnl]
  simp only [stripCodeFence, h0]
  rw [if_pos hpre, hdrop, hbranch]
  rw [if_pos hsuf, htake, hfinal]

/-- C7: a reply wrapped as `"```json\n" ++ s ++ "\n```"` parses identically
to the bare `s`, in both the scoring parse function and the
question-generation parse function.  The claim's hypothesis "s parses as
JSON and does not itself begin with a backtick" is rendered syntactically:
`s` has a non-whitespace character, and its first non-whitespace character
is not a backtick (every JSON document satisfies both).  The external
`json.loads` is abstract: both sides strip down to the identical string. -/
theorem parse_fence_roundtrip (jsonLoads : List Char → Option JsonValue)
    (s : List Char) (h1 : pyLstrip s ≠ [])
    (h2 : ∀ c, (pyStrip s).head? = some c → c ≠ backtick) :
    _parse_scoring_json jsonLoads (wrapFence s) = _parse_scoring_json jsonLoads s ∧
    _parse_json_from_content jsonLoads (wrapFence s) =
      _parse_json_from_content jsonLoads s := by
  have h := stripCodeFence_wrapFence h1
  have h' := stripCodeFence_of_no_fence h2
  constructor <;> simp only [_parse_scoring_json, _parse_json_from_content, h, h']

/-- A tiny concrete stand-in for Python's `json.loads`, used to instantiate
the abstract parser parameter on concrete runs: it recognises the single
document `"[1, 2]"` and rejects everything else. -/
def jsonLoadsDemo : List Char → Option JsonValue := fun c =>
  if c = String.toList "[1, 2]" then some (.arr [.num 1, .num 2]) else none

/-- C7 witness: the concrete payload `"[1, 2]"` wrapped in a code fence
parses identically to the bare payload. -/
theorem parse_fence_roundtrip_witness :
    (pyLstrip (String.toList "[1, 2]") ≠ [] ∧
     (∀ c, (pyStrip (String.toList "[1, 2]")).head? = some c → c ≠ backtick)) ∧
    (_parse_scoring_json jsonLoadsDemo (wrapFence (String.toList "[1, 2]")) =
       _parse_scoring_json jsonLoadsDemo (String.toList "[1, 2]") ∧
     _parse_json_from_content jsonLoadsDemo (wrapFence (String.toList "[1, 2]")) =
       _parse_json_from_content jsonLoadsDemo (String.toList "[1, 2]")) :=
  ⟨⟨by decide,
    fun c hc => by
      rw [show (pyStrip (String.toList "[1, 2]")).head? = some '[' from rfl] at hc
      simp only [Option.some.injEq] at hc
      subst hc
      decide⟩,
   parse_fence_roundtrip jsonLoadsDemo (String.toList "[1, 2]") (by decide)
     (fun c hc => by
       rw [show (pyStrip (String.toList "[1, 2]")).head? = some '[' from rfl] at hc
       simp only [Option.some.injEq] at hc
       subst hc
       decide)⟩

/-! ### Schemas (`app/schemas/rag_scoring.py`, `app/schemas/jd_questions_schema.py`) -/

/-- `RetrievedChunk` from `app/schemas/rag_scoring.py`.  `similarity` is a
Python float; modelled as `ℚ` (only ordering matters). -/
structure RetrievedChunk where
  chunk_id : Nat
  start : Nat
  «end» : Nat
  similarity : ℚ
  text : List Char
deriving DecidableEq

/-- `ScoredQuestion` from `app/schemas/rag_scoring.py`. -/
structure ScoredQuestion where
  category : List Char
  question : List Char
  answer : List Char
  score : ℚ
  reasoning : List Char
  evidence_chars : Nat
  retrieved_chunks : List RetrievedChunk
deriving DecidableEq

/-- `ResumeRagResult` from `app/schemas/rag_scoring.py`. -/
structure ResumeRagResult where
  questions : List ScoredQuestion
  average_score : ℚ
deriving DecidableEq

/-- `Question` from `app/schemas/jd_questions_schema.py`. -/
structure Question where
  question : List Char
deriving DecidableEq

/-- `JDQuestions` from `app/schemas/jd_questions_schema.py`. -/
structure JDQuestions where
  education : List Question
  experience : List Question
  technical_skills : List Question
  soft_skills : List Question
deriving DecidableEq

/-- The two configuration fields of `app/config.py` consumed by
`score_resume_with_rag`. -/
structure Settings where
  max_resume_chars : Nat
  max_questions_per_category : Nat
deriving DecidableEq

/-- The error kinds raised along the scoring pipeline:
`ValidationAppError` (`app/errors.py`) for the résumé length check, Python
`ValueError` for an unparseable reply, and Python `AttributeError` for a
JSON reply that is not an object (so `parsed.get` does not exist). -/
inductive AppError where
  | validation : List Char → AppError
  | valueError : List Char → AppError
  | attributeError : List Char → AppError
deriving DecidableEq

/-! ### Embeddings (`app/service/embedding_service.py`)

The sentence-transformer model is an external process-wide resource; it is
modelled as an explicit parameter `encode : List (List Char) → List (List ℚ)`
returning one embedding row per input text.  Matrices are lists of rows. -/

/-- `embed_texts`: empty input yields an explicit zero-row matrix, otherwise
the encoder output. -/
def embed_texts (encode : List (List Char) → List (List ℚ))
    (texts : List (List Char)) : List (List ℚ) :=
  if texts.isEmpty then [] else encode texts

/-- `a.size` of a list-of-rows matrix: the total number of entries. -/
def msize (a : List (List ℚ)) : Nat := (a.map List.length).sum

/-- Row-by-row inner product (`np.matmul(a, b.T)[i][j]`). -/
def dot (x y : List ℚ) : ℚ := (List.zipWith (· * ·) x y).sum

/-- `cosine_sim_matrix` from `app/service/embedding_service.py`: if either
input has no entries, a zero matrix of shape `(len a, len b)`; otherwise the
matrix of pairwise inner products (the vectors are pre-normalized). -/
def cosine_sim_matrix (a b : List (List ℚ)) : List (List ℚ) :=
  if msize a = 0 ∨ msize b = 0 then
    List.replicate a.length (List.replicate b.length 0)
  else
    a.map (fun ra => b.map (fun rb => dot ra rb))

/-! ### Retrieval (`resume_rag_scorer.py` lines 28–60) -/

/-- `np.argsort(-sims)` modelled by sorting the index list by similarity
descending (insertion sort).  NumPy's default quicksort is not stable, so
the order among equal similarities is implementation-defined in the source;
the spec leaves the tie-break open, and only the descending order matters
for the properties below. -/
def argsortDesc (sims : List ℚ) : List Nat :=
  List.insertionSort (fun i j => sims.getD j 0 ≤ sims.getD i 0)
    (List.range sims.length)

/-- `_retrieve_chunks_for_question`: embed the question (a single row),
take row 0 of the similarity matrix, return `[]` on an empty index, else
build `RetrievedChunk`s for the `min top_k (len sims)` highest-similarity
indices.  (Python indexes `chunks[int(idx)]`; under the index invariant
`len(chunks) == len(chunk_embeddings)` the index is always in range, so the
`getD` default is never used.) -/
def _retrieve_chunks_for_question (encode : List (List Char) → List (List ℚ))
    (question : List Char) (chunks : List TextChunk)
    (chunk_embeddings : List (List ℚ)) (top_k : Nat) : List RetrievedChunk :=
  let question_emb := embed_texts encode [question]
  let sims := (cosine_sim_matrix question_emb chunk_embeddings).headD []
  if sims.length = 0 then []
  else
    let k := min top_k sims.length
    let top_indices := (argsortDesc sims).take k
    top_indices.map (fun idx =>
      let c := chunks.getD idx ⟨0, 0, 0, []⟩
      { chunk_id := c.id, start := c.start, «end» := c.«end»,
        similarity := sims.getD idx 0, text := c.text })

/-! ### Per-question scoring (`resume_rag_scorer.py` lines 63–142) -/

/-- ASCII digit test. -/
def isDigit (c : Char) : Bool := 48 ≤ c.toNat && c.toNat ≤ 57

/-- Value of a digit string. -/
def digitsToNat (l : List Char) : Nat :=
  l.foldl (fun acc c => acc * 10 + (c.toNat - 48)) 0

/-- Models Python `float(str)` on plain decimal literals (optional sign,
integer digits, optional fractional part, surrounding whitespace),
returning `none` on anything else — such as `"not a number"`.  Exponents,
`inf`/`nan` and underscore separators are not modelled; none occur in the
claims and `nan`/`inf` have no `ℚ` counterpart. -/
def parseFloatString (s : List Char) : Option ℚ :=
  let t := pyStrip s
  let signed : ℚ × List Char :=
    match t with
    | '-' :: r => (-1, r)
    | '+' :: r => (1, r)
    | _ => (1, t)
  let intPart := signed.2.takeWhile isDigit
  let rest := signed.2.dropWhile isDigit
  match rest with
  | [] => if intPart.isEmpty then none
          else some (signed.1 * (digitsToNat intPart : ℚ))
  | '.' :: frac =>
    if frac.all isDigit && !(intPart.isEmpty && frac.isEmpty) then
      some (signed.1 * ((digitsToNat intPart : ℚ) +
        (digitsToNat frac : ℚ) / (10 : ℚ) ^ frac.length))
    else none
  | _ => none

/-- Python `float(x)` applied to a parsed JSON value; `none` models the
`TypeError`/`ValueError` that the scorer catches and defaults to 0.0. -/
def pyFloat : JsonValue → Option ℚ
  | .num q => some q
  | .bool b => some (if b then 1 else 0)
  | .str s => parseFloatString s
  | _ => none

/-- Python `dict.get` on a parsed JSON object (association list in source
order; on duplicate keys `json.loads` keeps the last occurrence). -/
def dictGet (l : List (List Char × JsonValue)) (k : List Char) : Option JsonValue :=
  match l with
  | [] => none
  | (k', v) :: rest =>
    match dictGet rest k with
    | some v' => some v'
    | none => if k' = k then some v else none

/-- Python `str()` applied to a parsed JSON value, as used for the `answer`
and `reasoning` fields.  Strings map to themselves; for the non-string
cases — on which no property here depends — a fixed marker stands in for
CPython's rendering. -/
def pyStrOfJson : JsonValue → List Char
  | .str s => s
  | .null => String.toList "None"
  | .bool true => String.toList "True"
  | .bool false => String.toList "False"
  | .num _ => String.toList "number"
  | .arr _ => String.toList "list"
  | .obj _ => String.toList "dict"

/-- Lines 123–142 of `_score_single_question_with_rag`: extract `answer`,
`score` and `reasoning` from the parsed JSON object with defaults (`""`,
`0`, `""`), convert the raw score with `float(...)` defaulting to 0.0 on
failure, clamp into `[0, 10]`, and build the `ScoredQuestion`. -/
def buildScoredQuestion (category question : List Char)
    (retrieved_chunks : List RetrievedChunk) (evidence_chars : Nat)
    (parsed : List (List Char × JsonValue)) : ScoredQuestion :=
  let answer := pyStrip (pyStrOfJson
    ((dictGet parsed (String.toList "answer")).getD (.str [])))
  let score_raw := (dictGet parsed (String.toList "score")).getD (.num 0)
  let reasoning := pyStrip (pyStrOfJson
    ((dictGet parsed (String.toList "reasoning")).getD (.str [])))
  let score := (pyFloat score_raw).getD 0
  let score1 := max 0 (min 10 score)
  { category := category, question := question, answer := answer,
    score := score1, reasoning := reasoning, evidence_chars := evidence_chars,
    retrieved_chunks := retrieved_chunks }

/-- `_score_single_question_with_rag` (lines 88–142), with the LLM transport
already performed: `content` is the assistant reply text (the
`call_ollama_chat` + `_extract_content_from_ollama_response` pair is the
external backend, modelled by the caller).  Evidence is the retrieved
chunks' text joined with the `"\n\n---\n\n"` separator.  A reply rejected
by `json.loads` raises `ValueError` (lines 116–121, uncaught upstream); a
JSON reply that is not an object raises `AttributeError` at `parsed.get`
(the function's `Dict` annotation notwithstanding). -/
def _score_single_question_with_rag (jsonLoads : List Char → Option JsonValue)
    (category question : List Char) (retrieved_chunks : List RetrievedChunk)
    (content : List Char) : Except AppError ScoredQuestion :=
  let evidence_text := if retrieved_chunks.isEmpty then ([] : List Char)
    else List.intercalate (String.toList "\n\n---\n\n")
      (retrieved_chunks.map RetrievedChunk.text)
  let evidence_chars := evidence_text.length
  match _parse_scoring_json jsonLoads content with
  | none => .error (.valueError
      (String.toList "Failed to parse scoring JSON for question " ++ question))
  | some (.obj o) =>
    .ok (buildScoredQuestion category question retrieved_chunks evidence_chars o)
  | some _ => .error (.attributeError (String.toList "parsed.get"))

/-! ### Orchestration (`resume_rag_scorer.py` lines 145–198) -/

/-- Sequential processing with abort on first error, which is how a Python
`for` loop behaves when an exception escapes it. -/
def mapExcept {α β : Type} (f : α → Except AppError β) :
    List α → Except AppError (List β)
  | [] => .ok []
  | a :: l =>
    match f a with
    | .error e => .error e
    | .ok b =>
      match mapExcept f l with
      | .error e => .error e
      | .ok bs => .ok (b :: bs)

/-- Lines 183–188: the four `process_category` calls in fixed order
(education, experience, technical_skills, soft_skills), each truncating its
question list to `max_questions_per_category`, flattened into the single
(category, question-text) sequence that `all_scored` accumulates over.
Processing this list left to right with abort on first error is exactly the
Python control flow. -/
def taggedQuestions (max_q : Nat) (jd : JDQuestions) :
    List (List Char × List Char) :=
  (jd.education.take max_q).map
    (fun q => (String.toList "education", q.question)) ++
  (jd.experience.take max_q).map
    (fun q => (String.toList "experience", q.question)) ++
  (jd.technical_skills.take max_q).map
    (fun q => (String.toList "technical_skills", q.question)) ++
  (jd.soft_skills.take max_q).map
    (fun q => (String.toList "soft_skills", q.question))

/-- `_build_resume_index` (lines 18–25): chunk the résumé with
`max_chars = 700`, `overlap = 150`, and embed the chunk texts. -/
def _build_resume_index (encode : List (List Char) → List (List ℚ))
    (resume_text : List Char) : List TextChunk × List (List ℚ) :=
  let chunks := chunk_text resume_text 700 150
  let chunk_texts := chunks.map TextChunk.text
  let embeddings := embed_texts encode chunk_texts
  (chunks, embeddings)

/-- One iteration of the inner loop of `process_category` (lines 170–181):
retrieve evidence for the question, call the backend (`backend` maps the
question text to the assistant reply content, the messages being a fixed
function of the question and evidence), and score. -/
def scoreOne (encode : List (List Char) → List (List ℚ))
    (jsonLoads : List Char → Option JsonValue)
    (backend : List Char → List Char) (chunks : List TextChunk)
    (chunk_embeddings : List (List ℚ)) (top_k : Nat)
    (cq : List Char × List Char) : Except AppError ScoredQuestion :=
  let retrieved := _retrieve_chunks_for_question encode cq.2 chunks
    chunk_embeddings top_k
  _score_single_question_with_rag jsonLoads cq.1 cq.2 retrieved (backend cq.2)

/-- `score_resume_with_rag` (lines 145–198): reject an oversized résumé with
`ValidationAppError`, build the chunk index once, score every (category,
question) pair in fixed order, and aggregate the average score (0.0 for an
empty question set). -/
def score_resume_with_rag (encode : List (List Char) → List (List ℚ))
    (jsonLoads : List Char → Option JsonValue)
    (backend : List Char → List Char) (settings : Settings)
    (jd_questions : JDQuestions) (resume_text : List Char) (top_k : Nat) :
    Except AppError ResumeRagResult :=
  if resume_text.length > settings.max_resume_chars then
    .error (.validation
      (String.toList "Resume text is too long for processing."))
  else
    let idx := _build_resume_index encode resume_text
    match mapExcept (scoreOne encode jsonLoads backend idx.1 idx.2 top_k)
        (taggedQuestions settings.max_questions_per_category jd_questions) with
    | .error e => .error e
    | .ok all_scored =>
      let avg_score : ℚ :=
        match all_scored with
        | [] => 0
        | _ => ((all_scored.map ScoredQuestion.score).sum) /
            (all_scored.length : ℚ)
      .ok { questions := all_scored, average_score := avg_score }

/-- C3: for every successfully parsed backend reply (a JSON object), the
resulting `ScoredQuestion.score` lies in `[0, 10]`; and the four injected
replies with `score` = `-5`, `15`, `"not a number"`, or absent yield
exactly `0`, `10`, `0`, `0`. -/
theorem scored_question_score_clamped :
    (∀ category question retrieved ec parsed,
      0 ≤ (buildScoredQuestion category question retrieved ec parsed).score ∧
      (buildScoredQuestion category question retrieved ec parsed).score ≤ 10) ∧
    (∀ category question retrieved ec,
      (buildScoredQuestion category question retrieved ec
        [(String.toList "score", JsonValue.num (-5))]).score = 0 ∧
      (buildScoredQuestion category question retrieved ec
        [(String.toList "score", JsonValue.num 15)]).score = 10 ∧
      (buildScoredQuestion category question retrieved ec
        [(String.toList "score",
          JsonValue.str (String.toList "not a number"))]).score = 0 ∧
      (buildScoredQuestion category question retrieved ec []).score = 0) := by
  constructor
  · intro category question retrieved ec parsed
    exact ⟨le_max_left 0 _, max_le (by norm_num) (min_le_left _ _)⟩
  · intro category question retrieved ec
    refine ⟨rfl, rfl, rfl, rfl⟩

/-- C6: an oversized résumé is rejected with a `ValidationAppError` before
any chunking, embedding or backend call: the result is the validation
failure, and it is unchanged under arbitrary replacement of the encoder,
the JSON parser, the backend and `top_k` — so zero backend calls and no
partial processing are observable. -/
theorem oversized_resume_rejected
    (encode encode' : List (List Char) → List (List ℚ))
    (jsonLoads jsonLoads' : List Char → Option JsonValue)
    (backend backend' : List Char → List Char) (settings : Settings)
    (jd : JDQuestions) (resume_text : List Char) (top_k top_k' : Nat)
    (h : resume_text.length > settings.max_resume_chars) :
    score_resume_with_rag encode jsonLoads backend settings jd resume_text top_k =
      .error (.validation
        (String.toList "Resume text is too long for processing.")) ∧
    score_resume_with_rag encode jsonLoads backend settings jd resume_text top_k =
      score_resume_with_rag encode' jsonLoads' backend' settings jd
        resume_text top_k' := by
  have e : ∀ (enc : List (List Char) → List (List ℚ))
      (jl : List Char → Option JsonValue) (bk : List Char → List Char)
      (tk : Nat),
      score_resume_with_rag enc jl bk settings jd resume_text tk =
        .error (.validation
          (String.toList "Resume text is too long for processing.")) := by
    intro enc jl bk tk
    unfold score_resume_with_rag
    rw [if_pos h]
  exact ⟨e encode jsonLoads backend top_k, by rw [e, e]⟩

/-- C6 witness: a two-character résumé against a one-character limit. -/
theorem oversized_resume_rejected_witness :
    (String.toList "ab").length > (Settings.mk 1 25).max_resume_chars ∧
    (score_resume_with_rag (fun texts => texts.map (fun _ => [1]))
        jsonLoadsDemo (fun _ => []) (Settings.mk 1 25)
        (JDQuestions.mk [] [] [] []) (String.toList "ab") 3 =
      .error (.validation
        (String.toList "Resume text is too long for processing.")) ∧
     score_resume_with_rag (fun texts => texts.map (fun _ => [1]))
        jsonLoadsDemo (fun _ => []) (Settings.mk 1 25)
        (JDQuestions.mk [] [] [] []) (String.toList "ab") 3 =
      score_resume_with_rag (fun texts => texts.map (fun _ => [2]))
        (fun _ => none) (fun _ => ['x']) (Settings.mk 1 25)
        (JDQuestions.mk [] [] [] []) (String.toList "ab") 7) :=
  ⟨by decide,
   oversized_resume_rejected (fun texts => texts.map (fun _ => [1]))
     (fun texts => texts.map (fun _ => [2])) jsonLoadsDemo (fun _ => none)
     (fun _ => []) (fun _ => ['x']) (Settings.mk 1 25)
     (JDQuestions.mk [] [] [] []) (String.toList "ab") 3 7 (by decide)⟩

theorem mapExcept_ok_forall₂ {α β : Type} {f : α → Except AppError β} :
    ∀ {l : List α} {r : List β}, mapExcept f l = .ok r →
      List.Forall₂ (fun a b => f a = .ok b) l r := by
  intro l
  induction l with
  | nil =>
    intro r h
    simp only [mapExcept, Except.ok.injEq] at h
    subst h
    exact List.Forall₂.nil
  | cons a l ih =>
    intro r h
    simp only [mapExcept] at h
    cases hfa : f a with
    | error e => rw [hfa] at h; exact absurd h (by simp)
    | ok b =>
      rw [hfa] at h
      cases hml : mapExcept f l with
      | error e => rw [hml] at h; exact absurd h (by simp)
      | ok bs =>
        rw [hml] at h
        simp only [Except.ok.injEq] at h
        subst h
        exact List.Forall₂.cons hfa (ih hml)

theorem mapExcept_error_of_exists {α β : Type} {f : α → Except AppError β}
    {l : List α} (h : ∃ a ∈ l, ∃ e, f a = .error e) :
    ∃ e, mapExcept f l = .error e := by
  induction l with
  | nil => simp at h
  | cons b l ih =>
    rcases h with ⟨a, ha, e0, he0⟩
    rcases List.mem_cons.mp ha with rfl | ha'
    · exact ⟨e0, by simp [mapExcept, he0]⟩
    · cases hfb : f b with
      | error e => exact ⟨e, by simp [mapExcept, hfb]⟩
      | ok c =>
        rcases ih ⟨a, ha', e0, he0⟩ with ⟨e, he⟩
        exact ⟨e, by simp [mapExcept, hfb, he]⟩

/-- Extracting the successful-run shape of `score_resume_with_rag`: the
returned record is the scored list with its computed average. -/
theorem score_resume_with_rag_ok {encode : List (List Char) → List (List ℚ)}
    {jsonLoads : List Char → Option JsonValue}
    {backend : List Char → List Char} {settings : Settings}
    {jd : JDQuestions} {resume_text : List Char} {top_k : Nat}
    {r : ResumeRagResult}
    (h : score_resume_with_rag encode jsonLoads backend settings jd
      resume_text top_k = .ok r) :
    mapExcept (scoreOne encode jsonLoads backend
        (_build_resume_index encode resume_text).1
        (_build_resume_index encode resume_text).2 top_k)
      (taggedQuestions settings.max_questions_per_category jd) =
        .ok r.questions ∧
    r.average_score = (match r.questions with
      | [] => (0 : ℚ)
      | _ => ((r.questions.map ScoredQuestion.score).sum) /
          (r.questions.length : ℚ)) := by
  unfold score_resume_with_rag at h
  split at h
  · exact absurd h (by simp)
  · simp only [] at h
    split at h
    · exact absurd h (by simp)
    · rename_i all_scored heq
      simp only [Except.ok.injEq] at h
      subst h
      exact ⟨heq, rfl⟩

/-- C5: `average_score` equals the arithmetic mean of the scores of all
`ScoredQuestion` entries in the result, and equals 0.0 when the scored
question set is empty. -/
theorem average_score_is_mean (encode : List (List Char) → List (List ℚ))
    (jsonLoads : List Char → Option JsonValue)
    (backend : List Char → List Char) (settings : Settings)
    (jd : JDQuestions) (resume_text : List Char) (top_k : Nat)
    (r : ResumeRagResult)
    (h : score_resume_with_rag encode jsonLoads backend settings jd
      resume_text top_k = .ok r) :
    (r.questions = [] → r.average_score = 0) ∧
    (r.questions ≠ [] → r.average_score =
      ((r.questions.map ScoredQuestion.score).sum) /
        (r.questions.length : ℚ)) := by
  obtain ⟨-, havg⟩ := score_resume_with_rag_ok h
  constructor
  · intro hq
    rw [havg, hq]
  · intro hq
    rw [havg]
    cases hcase : r.questions with
    | nil => exact absurd hcase hq
    | cons a l => simp [hcase]

/-- C5 witness: an empty question set gives `average_score = 0`. -/
theorem average_score_is_mean_witness :
    score_resume_with_rag (fun texts => texts.map (fun _ => [1]))
        jsonLoadsDemo (fun _ => []) (Settings.mk 100 25)
        (JDQuestions.mk [] [] [] []) (String.toList "ab") 3 =
      .ok (ResumeRagResult.mk [] 0) ∧
    ((ResumeRagResult.mk [] 0).questions = [] →
      (ResumeRagResult.mk [] 0).average_score = 0) ∧
    ((ResumeRagResult.mk [] 0).questions ≠ [] →
      (ResumeRagResult.mk [] 0).average_score =
        (((ResumeRagResult.mk [] 0).questions.map ScoredQuestion.score).sum) /
          (((ResumeRagResult.mk [] 0).questions.length : ℚ))) :=
  ⟨rfl,
   average_score_is_mean (fun texts => texts.map (fun _ => [1])) jsonLoadsDemo
     (fun _ => []) (Settings.mk 100 25) (JDQuestions.mk [] [] [] [])
     (String.toList "ab") 3 (ResumeRagResult.mk [] 0) rfl⟩

theorem scoreOne_fields {encode : List (List Char) → List (List ℚ)}
    {jsonLoads : List Char → Option JsonValue}
    {backend : List Char → List Char} {chunks : List TextChunk}
    {chunk_embeddings : List (List ℚ)} {top_k : Nat}
    {cq : List Char × List Char} {b : ScoredQuestion}
    (h : scoreOne encode jsonLoads backend chunks chunk_embeddings top_k cq =
      .ok b) : b.category = cq.1 ∧ b.question = cq.2 := by
  unfold scoreOne _score_single_question_with_rag at h
  simp only [] at h
  split at h
  · exact absurd h (by simp)
  · simp only [Except.ok.injEq] at h
    subst h
    exact ⟨rfl, rfl⟩
  · exact absurd h (by simp)

theorem forall₂_map_pair {l : List (List Char × List Char)}
    {r : List ScoredQuestion}
    (h : List.Forall₂ (fun cq b => b.category = cq.1 ∧ b.question = cq.2) l r) :
    r.map (fun sq => (sq.category, sq.question)) = l := by
  induction h with
  | nil => rfl
  | cons hab _ ih => simp [ih, hab.1, hab.2]

/-- C8: in every successful result, the scored questions appear in the fixed
category order education, experience, technical_skills, soft_skills,
preserving the original question order within each category, with each
category truncated to `max_questions_per_category` (excess questions
silently dropped, not an error) — the result's (category, question) pairs
are exactly `taggedQuestions`. -/
theorem questions_category_order (encode : List (List Char) → List (List ℚ))
    (jsonLoads : List Char → Option JsonValue)
    (backend : List Char → List Char) (settings : Settings)
    (jd : JDQuestions) (resume_text : List Char) (top_k : Nat)
    (r : ResumeRagResult)
    (h : score_resume_with_rag encode jsonLoads backend settings jd
      resume_text top_k = .ok r) :
    r.questions.map (fun sq => (sq.category, sq.question)) =
      taggedQuestions settings.max_questions_per_category jd := by
  obtain ⟨hmap, -⟩ := score_resume_with_rag_ok h
  exact forall₂_map_pair
    ((mapExcept_ok_forall₂ hmap).imp (fun _ _ hab => scoreOne_fields hab))

/-- Decidable equality on pipeline outcomes, for evaluating concrete runs. -/
instance : DecidableEq (Except AppError ResumeRagResult) := fun a b =>
  match a, b with
  | .error e, .error e' =>
    if h : e = e' then .isTrue (by rw [h]) else .isFalse (by simp [h])
  | .ok r, .ok r' =>
    if h : r = r' then .isTrue (by rw [h]) else .isFalse (by simp [h])
  | .error _, .ok _ => .isFalse (by simp)
  | .ok _, .error _ => .isFalse (by simp)

/-- Demo encoder: one constant unit vector per input text. -/
def encodeDemo : List (List Char) → List (List ℚ) :=
  fun texts => texts.map (fun _ => [1])

/-- Demo `json.loads`: recognises the single reply `"ok"` as the object
`{score: 5}` and rejects everything else as malformed. -/
def jsonLoadsObjDemo : List Char → Option JsonValue := fun c =>
  if c = String.toList "ok" then
    some (.obj [(String.toList "score", .num 5)])
  else none

/-- Demo backend that always answers the well-formed reply `"ok"`. -/
def backendOkDemo : List Char → List Char := fun _ => String.toList "ok"

/-- Demo JD question set: one education question, one experience question. -/
def jdDemo : JDQuestions :=
  ⟨[⟨String.toList "eq"⟩], [⟨String.toList "xq"⟩], [], []⟩

/-- The scored questions of the successful demo run (empty résumé, so no
evidence is retrieved; both replies parse as `{score: 5}`). -/
def qsDemo : List ScoredQuestion :=
  [⟨String.toList "education", String.toList "eq", [], 5, [], 0, []⟩,
   ⟨String.toList "experience", String.toList "xq", [], 5, [], 0, []⟩]

/-- The result of the successful demo scoring run. -/
def rDemo : ResumeRagResult :=
  ⟨qsDemo, ((qsDemo.map ScoredQuestion.score).sum) / (qsDemo.length : ℚ)⟩

/-- C8 witness: a concrete successful two-question run, with the questions
listed in category order. -/
theorem questions_category_order_witness :
    score_resume_with_rag encodeDemo jsonLoadsObjDemo backendOkDemo
        (Settings.mk 100 25) jdDemo (String.toList "") 3 = .ok rDemo ∧
    rDemo.questions.map (fun sq => (sq.category, sq.question)) =
      taggedQuestions (Settings.mk 100 25).max_questions_per_category jdDemo :=
  ⟨rfl,
   questions_category_order encodeDemo jsonLoadsObjDemo backendOkDemo
     (Settings.mk 100 25) jdDemo (String.toList "") 3 rDemo rfl⟩

/-- Demo backend that answers the malformed reply `"bad"` to the question
`"q1"` and the well-formed reply `"ok"` to everything else. -/
def backendBadDemo : List Char → List Char := fun q =>
  if q = String.toList "q1" then String.toList "bad" else String.toList "ok"

/-- Demo JD question set with a first (education) question whose reply is
malformed and a second (experience) question whose reply is fine. -/
def jdBadDemo : JDQuestions :=
  ⟨[⟨String.toList "q1"⟩], [⟨String.toList "q2"⟩], [], []⟩

/-- C2 counterexample: with a malformed backend reply for the single
education question `"q1"` (and a well-formed reply for the remaining
question `"q2"`), `score_resume_with_rag` fails the whole scoring call with
the propagated `ValueError` — no `ResumeRagResult` is produced and the
remaining question is not scored, contradicting the claim. -/
theorem malformed_reply_aborts_counterexample :
    score_resume_with_rag encodeDemo jsonLoadsObjDemo backendBadDemo
        (Settings.mk 100 25) jdBadDemo (String.toList "") 3 =
      .error (.valueError
        (String.toList "Failed to parse scoring JSON for question " ++
          String.toList "q1")) := rfl

/-- C2 amended: when the backend reply for any processed question is
malformed (rejected by `json.loads`), `_score_single_question_with_rag`
raises a `ValueError` and `score_resume_with_rag` propagates it: the whole
scoring call fails with an error instead of returning a degraded
`ScoredQuestion` for that question. -/
theorem malformed_reply_aborts_batch
    (encode : List (List Char) → List (List ℚ))
    (jsonLoads : List Char → Option JsonValue)
    (backend : List Char → List Char) (settings : Settings)
    (jd : JDQuestions) (resume_text : List Char) (top_k : Nat)
    (hlen : ¬ resume_text.length > settings.max_resume_chars)
    (hbad : ∃ cq ∈ taggedQuestions settings.max_questions_per_category jd,
      jsonLoads (stripCodeFence (backend cq.2)) = none) :
    ∃ e, score_resume_with_rag encode jsonLoads backend settings jd
      resume_text top_k = .error e := by
  unfold score_resume_with_rag
  rw [if_neg hlen]
  have herr : ∃ cq ∈ taggedQuestions settings.max_questions_per_category jd,
      ∃ e, scoreOne encode jsonLoads backend
        (_build_resume_index encode resume_text).1
        (_build_resume_index encode resume_text).2 top_k cq = .error e := by
    rcases hbad with ⟨cq, hmem, hnone⟩
    refine ⟨cq, hmem, ?_⟩
    unfold scoreOne _score_single_question_with_rag _parse_scoring_json
    rw [hnone]
    exact ⟨_, rfl⟩
  rcases mapExcept_error_of_exists herr with ⟨e, he⟩
  exact ⟨e, by simp only [he]⟩

/-- C2 amended witness: the concrete malformed-reply run of the
counterexample satisfies the amended claim's hypotheses. -/
theorem malformed_reply_aborts_batch_witness :
    (¬ (String.toList "").length > (Settings.mk 100 25).max_resume_chars ∧
     (String.toList "education", String.toList "q1") ∈
       taggedQuestions (Settings.mk 100 25).max_questions_per_category jdBadDemo ∧
     jsonLoadsObjDemo (stripCodeFence (backendBadDemo (String.toList "q1"))) =
       none) ∧
    ∃ e, score_resume_with_rag encodeDemo jsonLoadsObjDemo backendBadDemo
      (Settings.mk 100 25) jdBadDemo (String.toList "") 3 = .error e :=
  ⟨⟨by decide, by decide, rfl⟩,
   malformed_reply_aborts_batch encodeDemo jsonLoadsObjDemo backendBadDemo
     (Settings.mk 100 25) jdBadDemo (String.toList "") 3 (by decide)
     ⟨(String.toList "education", String.toList "q1"), by decide, rfl⟩⟩

/-- The similarity row for one question has one entry per indexed chunk
embedding, whether or not the zero-size branch of `cosine_sim_matrix` is
taken. -/
theorem sims_length {encode : List (List Char) → List (List ℚ)}
    {question : List Char} {chunk_embeddings : List (List ℚ)}
    (hq : (embed_texts encode [question]).length = 1) :
    ((cosine_sim_matrix (embed_texts encode [question])
      chunk_embeddings).headD []).length = chunk_embeddings.length := by
  obtain ⟨v, hv⟩ := List.length_eq_one.mp hq
  rw [hv]
  unfold cosine_sim_matrix
  split
  · simp
  · simp

/-- C4: the retrieval result is ordered by similarity descending, its length
equals `min top_k (number of chunks in the index)`, and an empty index
yields an empty result rather than an error.  The hypotheses state the
`EmbeddingIndex` invariant (`len(chunks) == len(vectors)`) and that the
external encoder returns one row for the one question. -/
theorem retrieve_ranking (encode : List (List Char) → List (List ℚ))
    (question : List Char) (chunks : List TextChunk)
    (chunk_embeddings : List (List ℚ)) (top_k : Nat)
    (hq : (embed_texts encode [question]).length = 1)
    (hlen : chunk_embeddings.length = chunks.length) :
    (_retrieve_chunks_for_question encode question chunks chunk_embeddings
      top_k).length = min top_k chunks.length ∧
    List.Pairwise (fun a b => b.similarity ≤ a.similarity)
      (_retrieve_chunks_for_question encode question chunks chunk_embeddings
        top_k) ∧
    (chunks = [] → _retrieve_chunks_for_question encode question chunks
      chunk_embeddings top_k = []) := by
  have hs : ((cosine_sim_matrix (embed_texts encode [question])
      chunk_embeddings).headD []).length = chunks.length :=
    (sims_length hq).trans hlen
  unfold _retrieve_chunks_for_question
  simp only []
  set sims := (cosine_sim_matrix (embed_texts encode [question])
    chunk_embeddings).headD [] with hsims
  by_cases h0 : sims.length = 0
  · rw [if_pos h0]
    exact ⟨by simp; omega, List.Pairwise.nil, fun _ => rfl⟩
  · rw [if_neg h0]
    refine ⟨?_, ?_, ?_⟩
    · simp only [List.length_map, List.length_take, argsortDesc,
        List.length_insertionSort, List.length_range]
      omega
    · rw [List.pairwise_map]
      have hsorted : List.Pairwise
          (fun i j => sims.getD j 0 ≤ sims.getD i 0)
          (argsortDesc sims) := by
        haveI : IsTotal Nat (fun i j => sims.getD j 0 ≤ sims.getD i 0) :=
          ⟨fun a b => le_total _ _⟩
        haveI : IsTrans Nat (fun i j => sims.getD j 0 ≤ sims.getD i 0) :=
          ⟨fun a b c hab hbc => le_trans hbc hab⟩
        exact List.sorted_insertionSort _ (List.range sims.length)
      exact (hsorted.sublist (List.take_sublist _ _))
  -- last conjunct: an empty chunk list forces an empty similarity row
    · intro hc
      rw [hc] at hs
      simp only [List.length_nil] at hs
      exact absurd hs h0

/-- C4 witness: a two-chunk index with a concrete encoder. -/
theorem retrieve_ranking_witness :
    ((embed_texts encodeDemo [String.toList "q"]).length = 1 ∧
     ([[1], [2]] : List (List ℚ)).length =
       ([⟨0, 0, 1, ['a']⟩, ⟨1, 1, 2, ['b']⟩] : List TextChunk).length) ∧
    ((_retrieve_chunks_for_question encodeDemo (String.toList "q")
        [⟨0, 0, 1, ['a']⟩, ⟨1, 1, 2, ['b']⟩] [[1], [2]] 3).length =
      min 3 ([⟨0, 0, 1, ['a']⟩, ⟨1, 1, 2, ['b']⟩] : List TextChunk).length ∧
     List.Pairwise (fun a b => b.similarity ≤ a.similarity)
       (_retrieve_chunks_for_question encodeDemo (String.toList "q")
         [⟨0, 0, 1, ['a']⟩, ⟨1, 1, 2, ['b']⟩] [[1], [2]] 3) ∧
     (([⟨0, 0, 1, ['a']⟩, ⟨1, 1, 2, ['b']⟩] : List TextChunk) = [] →
       _retrieve_chunks_for_question encodeDemo (String.toList "q")
         [⟨0, 0, 1, ['a']⟩, ⟨1, 1, 2, ['b']⟩] [[1], [2]] 3 = [])) :=
  ⟨⟨rfl, rfl⟩,
   retrieve_ranking encodeDemo (String.toList "q")
     [⟨0, 0, 1, ['a']⟩, ⟨1, 1, 2, ['b']⟩] [[1], [2]] 3 rfl rfl⟩

end Rizzume
